import Mathlib

/-!
# Verification of the VOD-Insights core against its specification

Shallow embedding of the event-extraction → windowing pipeline and the
multi-VOD synchronization engine of the VOD-Insights repository, together
with proofs and refutations of the specification's claims.

Conventions of the embedding:
* Python floats are modelled as rationals (`ℚ`); the claims under scrutiny
  only involve field access, comparisons, `max`/`min`, additions and
  multiplications, on which float and exact arithmetic agree in the
  regimes the spec describes.
* `datetime.now()` is passed in explicitly as a `now : ℚ` argument.
* Fallible lookups are modelled with `Option`.
* Python's stable `list.sort` / `sorted` is modelled by a stable insertion
  sort (`List.insertionSort` with a reflexive total relation, which places
  an earlier element before later equal ones, exactly like Timsort).
-/

namespace VodInsights

/-! ## split_bookmarks.py — window builder and merge pass -/

/-- `ClipWindow` dataclass (`split_bookmarks.py`).  The Python field `end`
is a Lean keyword, hence `end_`. -/
structure ClipWindow where
  start : ℚ
  end_ : ℚ
deriving DecidableEq, Repr

/-- `BookmarkEvent` dataclass (`split_bookmarks.py`). -/
structure BookmarkEvent where
  time : ℚ
  event : String
deriving DecidableEq, Repr

/-- Ordering used by `windows.sort(key=lambda w: w.start)`. -/
def windowLe (a b : ClipWindow) : Prop := a.start ≤ b.start

instance : DecidableRel windowLe := fun a b =>
  inferInstanceAs (Decidable (a.start ≤ b.start))

instance : IsTotal ClipWindow windowLe := ⟨fun a b => le_total a.start b.start⟩

instance : IsTrans ClipWindow windowLe := ⟨fun _ _ _ => le_trans⟩

/-- `build_windows(events, pre, post)`: map each event to
`ClipWindow(max(0, t - pre), max(0, t + post))` and sort by start. -/
def build_windows (events : List BookmarkEvent) (pre post : ℚ) : List ClipWindow :=
  List.insertionSort windowLe
    (events.map fun e => ⟨max 0 (e.time - pre), max 0 (e.time + post)⟩)

/-- The loop body of `merge_windows`: `last` is the window currently being
grown (Python's `merged[-1]`); already-emitted windows never change. -/
def merge_aux (gap : ℚ) (last : ClipWindow) : List ClipWindow → List ClipWindow
  | [] => [last]
  | c :: rest =>
    if c.start ≤ last.end_ + gap then
      merge_aux gap ⟨last.start, max last.end_ c.end_⟩ rest
    else
      last :: merge_aux gap c rest

/-- `merge_windows(windows, gap)` (`split_bookmarks.py`). -/
def merge_windows (windows : List ClipWindow) (gap : ℚ) : List ClipWindow :=
  match windows with
  | [] => []
  | w :: rest => merge_aux gap w rest

/-- Separation invariant between consecutive merged windows. -/
def mergeGap (gap : ℚ) (u v : ClipWindow) : Prop := u.end_ + gap < v.start

/-! ## multi_vod_models.py — session data model -/

/-- `VodOffsetHistoryEntry` dataclass (`multi_vod_models.py`). -/
structure VodOffsetHistoryEntry where
  timestamp : ℚ
  old_offset : ℚ
  new_offset : ℚ
  source : String
  confidence : Option ℚ
  changed_by : String
deriving DecidableEq, Repr

/-- `MultiVodSessionVod` dataclass (`multi_vod_models.py`).  The `events`
payload is opaque to every operation under study and is kept as a list of
strings. -/
structure MultiVodSessionVod where
  vod_id : String
  name : String
  path : String
  duration : ℚ
  fps : ℚ
  resolution : String
  codec : String
  filesize_mb : ℚ
  offset : ℚ
  offset_confidence : ℚ
  offset_source : String
  offset_set_at : ℚ
  offset_history : List VodOffsetHistoryEntry
  current_time : ℚ
  playback_state : String
  events : List String
deriving DecidableEq, Repr

/-- `MultiVodSession` dataclass (`multi_vod_models.py`).  The opaque
`sync_config`/`ui_state`/`auto_sync_result` dictionaries are omitted: no
operation under study reads or writes them. -/
structure MultiVodSession where
  session_id : String
  name : String
  description : String
  created_at : ℚ
  updated_at : ℚ
  created_by : String
  vods : List MultiVodSessionVod
  sync_mode : String
  global_time : ℚ
  global_playback_state : String
  playback_started_at : ℚ
deriving DecidableEq, Repr

/-- `MultiVodSession.get_vod_by_id`: first vod whose id matches. -/
def get_vod_by_id (s : MultiVodSession) (vid : String) : Option MultiVodSessionVod :=
  s.vods.find? fun v => v.vod_id == vid

/-! ## multi_vod_manager.py — offset updates, history, persistence -/

/-- `MultiVodSessionManager.save_session`: stamps `updated_at` and writes
the whole session document.  The document written is the returned value. -/
def save_session (now : ℚ) (s : MultiVodSession) : MultiVodSession :=
  { s with updated_at := now }

/-- The shared mutation body of `update_offset` and
`batch_update_offsets`: append one history entry capturing the old and new
value, then apply the new offset, source, confidence (default 1.0) and
set-at time. -/
def apply_offset_update (now new_offset : ℚ) (source : String) (confidence : Option ℚ)
    (changed_by : String) (v : MultiVodSessionVod) : MultiVodSessionVod :=
  { v with
    offset_history := v.offset_history ++
      [{ timestamp := now, old_offset := v.offset, new_offset := new_offset,
         source := source, confidence := confidence, changed_by := changed_by }],
    offset := new_offset,
    offset_source := source,
    offset_confidence := confidence.getD 1,
    offset_set_at := now }

/-- In-place mutation of the vod object returned by `get_vod_by_id`,
expressed functionally: rewrite the first vod whose id matches. -/
def update_first_vod (vods : List MultiVodSessionVod) (vid : String)
    (f : MultiVodSessionVod → MultiVodSessionVod) : List MultiVodSessionVod :=
  match vods with
  | [] => []
  | v :: rest => if v.vod_id == vid then f v :: rest else v :: update_first_vod rest vid f

/-- `MultiVodSessionManager.update_offset`.  The input is the result of
`load_session` (`none` = missing session); the second component counts
`save_session` calls. -/
def update_offset (s : Option MultiVodSession) (vid : String) (new_offset : ℚ)
    (source : String) (confidence : Option ℚ) (changed_by : String) (now : ℚ) :
    Option MultiVodSession × Nat :=
  match s with
  | none => (none, 0)
  | some session =>
    match get_vod_by_id session vid with
    | none => (none, 0)
    | some _ =>
      let vods2 := update_first_vod session.vods vid
        (apply_offset_update now new_offset source confidence changed_by)
      (some (save_session now { session with vods := vods2 }), 1)

/-- The mutation loop of `batch_update_offsets`: apply each listed update
in turn to the running vod list. -/
def batch_fold (now : ℚ) (source : String) (confidence : Option ℚ) (changed_by : String) :
    List (String × ℚ) → List MultiVodSessionVod → List MultiVodSessionVod
  | [], vods => vods
  | q :: rest, vods =>
    batch_fold now source confidence changed_by rest
      (update_first_vod vods q.1 (apply_offset_update now q.2 source confidence changed_by))

/-- `MultiVodSessionManager.batch_update_offsets`: validate that every
target vod id exists before mutating any of them, then apply all updates
and save once.  `offsets` models the Python dict as an association list
(dict keys are unique and iterate in insertion order). -/
def batch_update_offsets (s : Option MultiVodSession) (offsets : List (String × ℚ))
    (source : String) (confidence : Option ℚ) (changed_by : String) (now : ℚ) :
    Option MultiVodSession × Nat :=
  match s with
  | none => (none, 0)
  | some session =>
    if offsets.all (fun p => (get_vod_by_id session p.1).isSome) then
      let vods2 := batch_fold now source confidence changed_by offsets session.vods
      (some (save_session now { session with vods := vods2 }), 1)
    else (none, 0)

/-- One row of the history report built by `get_offset_history`. -/
structure OffsetHistoryItem where
  timestamp : ℚ
  vod_id : String
  vod_name : String
  old_offset : ℚ
  new_offset : ℚ
  source : String
  confidence : Option ℚ
  changed_by : String
deriving DecidableEq, Repr

/-- The vod filter of `get_offset_history`: `if vod_id and vod.vod_id !=
vod_id: continue` — an absent or empty (falsy) `vod_id` keeps every vod. -/
def history_vod_filter (vid : Option String) (v : MultiVodSessionVod) : Bool :=
  match vid with
  | none => true
  | some target => if target = "" then true else v.vod_id == target

/-- The entry-collection loop of `get_offset_history`, before sorting. -/
def collect_history (session : MultiVodSession) (vid : Option String) :
    List OffsetHistoryItem :=
  (session.vods.filter (history_vod_filter vid)).flatMap fun v =>
    v.offset_history.map fun e =>
      { timestamp := e.timestamp, vod_id := v.vod_id, vod_name := v.name,
        old_offset := e.old_offset, new_offset := e.new_offset, source := e.source,
        confidence := e.confidence, changed_by := e.changed_by }

/-- Ordering used by `sorted(entries, key=..., reverse=True)`: most recent
first. -/
def histDesc (a b : OffsetHistoryItem) : Prop := b.timestamp ≤ a.timestamp

instance : DecidableRel histDesc := fun a b =>
  inferInstanceAs (Decidable (b.timestamp ≤ a.timestamp))

instance : IsTotal OffsetHistoryItem histDesc := ⟨fun a b => le_total b.timestamp a.timestamp⟩

instance : IsTrans OffsetHistoryItem histDesc := ⟨fun _ _ _ h h2 => le_trans h2 h⟩

/-- `MultiVodSessionManager.get_offset_history`: a missing session yields
an empty list; otherwise the collected entries sorted by timestamp
descending. -/
def get_offset_history (s : Option MultiVodSession) (vid : Option String) :
    List OffsetHistoryItem :=
  match s with
  | none => []
  | some session => List.insertionSort histDesc (collect_history session vid)

/-! ## multi_vod_api.py — route-level behaviour -/

/-- The `/offset-history` handler: it guards on `history is None`, but the
manager's return type is a plain list, so the wrapped value is always
`some` and the 404 branch cannot fire. -/
def get_offset_history_route (s : Option MultiVodSession) (vid : Option String) :
    Nat × List OffsetHistoryItem :=
  match (some (get_offset_history s vid) : Option (List OffsetHistoryItem)) with
  | none => (404, [])
  | some h => (200, h)

/-- The `/global-seek` handler's mutation (after its timestamp validation):
set the global clock, put session and every vod into `seeking`, clamp each
vod's time to `[0, duration]`, and save. -/
def global_seek (s : Option MultiVodSession) (timestamp now : ℚ) :
    Option MultiVodSession :=
  match s with
  | none => none
  | some session =>
    some (save_session now
      { session with
          global_time := timestamp,
          global_playback_state := "seeking",
          vods := session.vods.map fun v =>
            { v with current_time := max 0 (min (timestamp - v.offset) v.duration),
                     playback_state := "seeking" } })

/-- The `/vods/<vod_id>/seek` handler's mutation: clamp to the target
vod's duration, seek only that vod, make the global clock follow it, and
save. -/
def seek_vod (s : Option MultiVodSession) (vid : String) (timestamp now : ℚ) :
    Option MultiVodSession :=
  match s with
  | none => none
  | some session =>
    match get_vod_by_id session vid with
    | none => none
    | some vod =>
      let ts := max 0 (min timestamp vod.duration)
      some (save_session now
        { session with
            global_time := ts + vod.offset,
            vods := update_first_vod session.vods vid
              fun v => { v with current_time := ts, playback_state := "seeking" } })

/-- Per-vod frame condition for C10: every field except `current_time` and
`playback_state` is untouched. -/
def seek_preserves_vod (v v2 : MultiVodSessionVod) : Prop :=
  v2.vod_id = v.vod_id ∧ v2.name = v.name ∧ v2.path = v.path ∧
  v2.duration = v.duration ∧ v2.fps = v.fps ∧ v2.resolution = v.resolution ∧
  v2.codec = v.codec ∧ v2.filesize_mb = v.filesize_mb ∧ v2.offset = v.offset ∧
  v2.offset_confidence = v.offset_confidence ∧ v2.offset_source = v.offset_source ∧
  v2.offset_set_at = v.offset_set_at ∧ v2.offset_history = v.offset_history ∧
  v2.events = v.events

/-- Session-level frame condition for C10: every session field except
`global_time`, `global_playback_state` and the persistence stamp
`updated_at` is untouched, and the vods correspond pointwise under
`seek_preserves_vod`. -/
def seek_preserves_session (s s2 : MultiVodSession) : Prop :=
  s2.session_id = s.session_id ∧ s2.name = s.name ∧ s2.description = s.description ∧
  s2.created_at = s.created_at ∧ s2.created_by = s.created_by ∧
  s2.sync_mode = s.sync_mode ∧ s2.playback_started_at = s.playback_started_at ∧
  List.Forall₂ seek_preserves_vod s.vods s2.vods

/-! ## detector.py and vod_ocr.py — keyword detection with cooldown -/

/-- Python `str.lower()` on one character (ASCII range, which is all the
OCR engine emits for keywords). -/
def pyLower (c : Char) : Char :=
  if 'A' ≤ c ∧ c ≤ 'Z' then Char.ofNat (c.toNat + 32) else c

/-- Python `str.lower()`. -/
def str_lower (s : String) : String := String.mk (s.toList.map pyLower)

/-- Line normalisation shared by `EventDetector.detect` and
`vod_ocr.detect_match`: lowercase, keep only alphanumerics and
whitespace. -/
def normalize_line (line : String) : String :=
  String.mk ((line.toList.map pyLower).filter fun c => c.isAlphanum || c.isWhitespace)

/-- Python's `needle in haystack` substring test. -/
def contains_sub (needle haystack : String) : Bool :=
  decide (needle.toList <:+: haystack.toList)

/-- Whether some keyword occurs in the line's normalisation. -/
def line_has_keyword (line : String) (keywords : List String) : Bool :=
  keywords.any fun k => contains_sub k (normalize_line line)

/-- `vod_ocr.detect_match`: the first line (in scan order) whose
normalisation contains any keyword; `""` when none does. -/
def detect_match (lines : List String) (keywords : List String) : String :=
  match lines with
  | [] => ""
  | line :: rest =>
    if line_has_keyword line keywords then line else detect_match rest keywords

/-- `DetectionResult` dataclass (`detector.py`). -/
structure DetectionResult where
  matched : Bool
  matched_line : String
deriving DecidableEq, Repr

/-- One call of `EventDetector.detect` (`detector.py`): the wall clock
`now` is explicit and the `_last_trigger` state is threaded through;
keywords are pre-lowercased by `__init__`.  Returns the new
`_last_trigger` and the result. -/
def event_detector_detect (keywords : List String) (cooldown_seconds : ℚ)
    (last_trigger now : ℚ) (lines : List String) : ℚ × DetectionResult :=
  if now - last_trigger < cooldown_seconds then (last_trigger, ⟨false, ""⟩)
  else
    match lines.find? (fun line => line_has_keyword line keywords) with
    | some line => (now, ⟨true, line⟩)
    | none => (last_trigger, ⟨false, ""⟩)

/-- One sampled frame of the VOD scan: elapsed seconds plus OCR lines. -/
structure OcrFrame where
  t : ℚ
  lines : List String

/-- The bookmark decision of `vod_ocr.main` for one sampled frame (lines
256-261): accept when a line matched and the cooldown has elapsed since
the last accepted match (`last_match_time` starts as `None`); the last
match time advances only on acceptance. -/
def scan_step (cooldown_seconds : ℚ) (keywords : List String)
    (last_match_time : Option ℚ) (frame : OcrFrame) : Option ℚ × Bool :=
  if detect_match frame.lines keywords ≠ "" then
    match last_match_time with
    | none => (some frame.t, true)
    | some last =>
      if cooldown_seconds ≤ frame.t - last then (some frame.t, true)
      else (some last, false)
  else (last_match_time, false)

/-- The scan loop folded over the sampled frames: the per-frame acceptance
decisions, in order. -/
def scan_accepts (cooldown_seconds : ℚ) (keywords : List String) :
    Option ℚ → List OcrFrame → List Bool
  | _, [] => []
  | last, f :: fs =>
    let s := scan_step cooldown_seconds keywords last f
    s.2 :: scan_accepts cooldown_seconds keywords s.1 fs

/-! ## vod_ocr.py — pause / resume checkpointing -/

/-- Contents of the `.paused` marker file `{frame_index, session_file,
progress}` (the progress field is not consulted on resume). -/
structure PausedMarker where
  frame_index : Nat
  session_file : String
deriving DecidableEq, Repr

/-- Resume resolution (`vod_ocr.main`, lines 143-163): with the `--resume`
flag and a readable marker whose recorded session file still exists, start
after the recorded frame and reuse the recorded log; otherwise start at
frame 0 with no inherited log.  `marker = none` covers both a missing and
an unreadable marker file. -/
def resolve_resume (resume : Bool) (marker : Option PausedMarker)
    (fileExists : String → Bool) : Nat × Option String :=
  match resume, marker with
  | true, some m =>
    if fileExists m.session_file then (m.frame_index, some m.session_file)
    else (0, none)
  | _, _ => (0, none)

/-- Session-file choice (`vod_ocr.main`, lines 165-169): the inherited log
when it still exists, else a fresh session-stamped name. -/
def choose_session_file (resolved : Nat × Option String) (fileExists : String → Bool)
    (fresh : String) : String :=
  match resolved.2 with
  | some f => if fileExists f then f else fresh
  | none => fresh

/-- `vod_ocr.ensure_session_file` on a file modelled as its optional
content: an existing file is left untouched; a missing one is created
with the CSV header or empty. -/
def ensure_session_file (existing : Option String) (fmt : String) : String :=
  match existing with
  | some content => content
  | none =>
    if str_lower fmt = "csv" then "timestamp,seconds_since_start,event,ocr\n" else ""

/-- `BookmarkWriter` opens the log with mode `"a"`: a write appends the
serialized record to the existing content. -/
def bookmark_append (content record : String) : String := content ++ record

/-- The frame indices the scan loop samples (grabs are counted 1-based;
indices `≤ start_frame` and off-stride indices are skipped). -/
def sampled_frames (total_grabbed start_frame sample_interval : Nat) : List Nat :=
  ((List.range total_grabbed).map (· + 1)).filter
    fun i => decide (start_frame < i) && decide (i % sample_interval = 0)

/-! ## ocr_timer_detector.py — Apex ring + countdown parsing -/

/-- `text.strip()`: drop leading and trailing whitespace. -/
def py_strip (cs : List Char) : List Char :=
  ((cs.dropWhile Char.isWhitespace).reverse.dropWhile Char.isWhitespace).reverse

/-- `re.sub(r'\s+', ' ', ·)`: collapse every whitespace run to a single
space (the flag records whether the previous character was whitespace). -/
def collapse_ws : Bool → List Char → List Char
  | _, [] => []
  | prevWs, c :: rest =>
    if c.isWhitespace then
      if prevWs then collapse_ws true rest else ' ' :: collapse_ws true rest
    else c :: collapse_ws false rest

/-- Numeric value of a digit string, as computed by Python `int`. -/
def digits_to_nat (cs : List Char) : Nat :=
  cs.foldl (fun n c => n * 10 + (c.toNat - 48)) 0

/-- The lookahead `(?!\d)`: the next character, if any, is not a digit. -/
def no_digit_ahead : List Char → Bool
  | [] => true
  | c :: _ => !c.isDigit

/-- Anchored match of `:(\d{2})(?!\d)`: the two second digits and the
remaining input. -/
def match_colon_ss : List Char → Option (List Char × List Char)
  | c0 :: c1 :: c2 :: rest =>
    if c0 = ':' ∧ c1.isDigit ∧ c2.isDigit ∧ no_digit_ahead rest then
      some ([c1, c2], rest)
    else none
  | _ => none

/-- Anchored match of `(\d{1,2}):(\d{2})(?!\d)` with the greedy
(two-digits-first, backtrack to one) minute group: minute digits, second
digits and the remaining input. -/
def match_countdown : List Char → Option (List Char × List Char × List Char)
  | [] => none
  | c1 :: rest =>
    if c1.isDigit then
      match rest with
      | [] => none
      | c2 :: rest2 =>
        if c2.isDigit then
          match match_colon_ss rest2 with
          | some (ss, r) => some ([c1, c2], ss, r)
          | none =>
            match match_colon_ss (c2 :: rest2) with
            | some (ss, r) => some ([c1], ss, r)
            | none => none
        else
          match match_colon_ss (c2 :: rest2) with
          | some (ss, r) => some ([c1], ss, r)
          | none => none
    else none

/-- A lone ring digit `[1-9]`. -/
def is_ring_digit (c : Char) : Bool := decide ('1' ≤ c ∧ c ≤ '9')

/-- Anchored match of `([1-9])(?!\d)\s*(\d{1,2}):(\d{2})(?!\d)`.  The
greedy `\s*` cannot backtrack usefully (whitespace is never a digit), so
it is a plain `dropWhile`. -/
def match_ring_at : List Char → Option (Char × List Char × List Char)
  | [] => none
  | c :: rest =>
    if is_ring_digit c && no_digit_ahead rest then
      match match_countdown (rest.dropWhile Char.isWhitespace) with
      | some (mm, ss, _) => some (c, mm, ss)
      | none => none
    else none

/-- The lookbehind `(?<!\d)`: the previous character, if any, is not a
digit. -/
def prev_not_digit : Option Char → Bool
  | none => true
  | some c => !c.isDigit

/-- `re.search` for the ring pattern: leftmost position at which the
lookbehind holds and the anchored match succeeds. -/
def search_ring_timer (prev : Option Char) : List Char → Option (Char × List Char × List Char)
  | [] => none
  | c :: rest =>
    match (if prev_not_digit prev then match_ring_at (c :: rest) else none) with
    | some r => some r
    | none => search_ring_timer (some c) rest

/-- `re.search` for the bare `(?<!\d)(\d{1,2}):(\d{2})(?!\d)` pattern. -/
def search_bare_timer (prev : Option Char) : List Char → Option (List Char × List Char)
  | [] => none
  | c :: rest =>
    match (if prev_not_digit prev then
             match match_countdown (c :: rest) with
             | some (mm, ss, _) => some (mm, ss)
             | none => none
           else none) with
    | some r => some r
    | none => search_bare_timer (some c) rest

/-- The bare `MM:SS` fallback branch of `parse_apex_timer`: the result is
`f"{m}:{s}"` with the matched digit groups verbatim. -/
def parse_bare_timer (normalized : List Char) : Option String :=
  match search_bare_timer none normalized with
  | some (mm, ss) =>
    if digits_to_nat mm < 60 ∧ digits_to_nat ss < 60 then
      some (String.mk (mm ++ ':' :: ss))
    else none
  | none => none

/-- `ApexLegendTimerDetector.parse_apex_timer`: whitespace-collapsed text;
`"ring:MM:SS"` when a lone ring digit (1-9) precedes a validated countdown
(minutes < 60 and seconds < 60); otherwise — including when the ring match
fails validation — the bare `MM:SS` fallback. -/
def parse_apex_timer (text : String) : Option String :=
  let normalized := collapse_ws false (py_strip text.toList)
  match search_ring_timer none normalized with
  | some (ring, mm, ss) =>
    if digits_to_nat mm < 60 ∧ digits_to_nat ss < 60 then
      some (String.mk (ring :: ':' :: (mm ++ ':' :: ss)))
    else parse_bare_timer normalized
  | none => parse_bare_timer normalized

/-! ## routes/ocr_sync.py — timer comparison and sync offset -/

/-- Python `str.split(":")`. -/
def split_on_colon : List Char → List (List Char)
  | [] => [[]]
  | c :: rest =>
    if c = ':' then [] :: split_on_colon rest
    else
      match split_on_colon rest with
      | [] => [[c]]
      | g :: gs => (c :: g) :: gs

/-- Python `int(...)` on a string: optional sign and at least one digit;
anything else raises `ValueError`, modelled as `none`. -/
def py_int (cs : List Char) : Option ℤ :=
  match py_strip cs with
  | '-' :: ds =>
    if ds ≠ [] ∧ ds.all Char.isDigit then some (-(digits_to_nat ds : ℤ)) else none
  | '+' :: ds =>
    if ds ≠ [] ∧ ds.all Char.isDigit then some (digits_to_nat ds : ℤ) else none
  | ds =>
    if ds ≠ [] ∧ ds.all Char.isDigit then some (digits_to_nat ds : ℤ) else none

/-- `timer_to_seconds` (nested in `sync_vods`): fold `total = total*60 +
int(part)` over the colon-separated parts; `none` models the caught
`ValueError`. -/
def timer_to_seconds (timer_str : String) : Option ℤ :=
  (split_on_colon timer_str.toList).foldl
    (fun acc part =>
      match acc, py_int part with
      | some t, some v => some (t * 60 + v)
      | _, _ => none)
    (some 0)

/-- The matching decision of `sync_vods` (`routes/ocr_sync.py`, lines
149-173): both timers detected (non-empty), both parse, and the totals
differ by at most 2; the offset is then `(secondary - primary)` seconds,
reported in milliseconds. -/
def sync_timers (primary_timer secondary_timer : Option String) : Bool × Option ℤ :=
  match primary_timer, secondary_timer with
  | some p, some s =>
    if p ≠ "" ∧ s ≠ "" then
      match timer_to_seconds p, timer_to_seconds s with
      | some pv, some sv =>
        if |pv - sv| ≤ 2 then (true, some ((sv - pv) * 1000)) else (false, none)
      | _, _ => (false, none)
    else (false, none)
  | _, _ => (false, none)

/-! ## Concrete sessions used to instantiate hypotheses -/

/-- A concrete session vod with the given id and offset. -/
def demoVod (vid : String) (off : ℚ) : MultiVodSessionVod :=
  { vod_id := vid, name := vid, path := "/vods/" ++ vid ++ ".mp4", duration := 100,
    fps := 30, resolution := "1920x1080", codec := "h264", filesize_mb := 500,
    offset := off, offset_confidence := 1, offset_source := "manual",
    offset_set_at := 0, offset_history := [], current_time := 0,
    playback_state := "paused", events := [] }

/-- A concrete two-vod session. -/
def demoSession : MultiVodSession :=
  { session_id := "comp-demo", name := "demo", description := "",
    created_at := 0, updated_at := 0, created_by := "system",
    vods := [demoVod "vod-1" 0, demoVod "vod-2" 37],
    sync_mode := "global", global_time := 0,
    global_playback_state := "paused", playback_started_at := 0 }

lemma merge_aux_head_start (gap : ℚ) :
    ∀ (rest : List ClipWindow) (last : ClipWindow),
      ∃ h t, merge_aux gap last rest = h :: t ∧ h.start = last.start := by
  intro rest
  induction rest with
  | nil => exact fun last => ⟨last, [], rfl, rfl⟩
  | cons c rest ih =>
    intro last
    by_cases hc : c.start ≤ last.end_ + gap
    · obtain ⟨h, t, heq, hs⟩ := ih ⟨last.start, max last.end_ c.end_⟩
      exact ⟨h, t, by simp [merge_aux, hc, heq], hs⟩
    · exact ⟨last, merge_aux gap c rest, by simp [merge_aux, hc], rfl⟩

lemma merge_aux_chain (gap : ℚ) :
    ∀ (rest : List ClipWindow) (last : ClipWindow),
      List.Chain' (mergeGap gap) (merge_aux gap last rest) := by
  intro rest
  induction rest with
  | nil => intro last; simp [merge_aux]
  | cons c rest ih =>
    intro last
    by_cases hc : c.start ≤ last.end_ + gap
    · simpa [merge_aux, hc] using ih ⟨last.start, max last.end_ c.end_⟩
    · obtain ⟨h, t, heq, hs⟩ := merge_aux_head_start gap rest c
      have hchain := ih c
      rw [heq] at hchain
      simp only [merge_aux, hc, if_false]
      rw [heq]
      exact List.Chain'.cons (show mergeGap gap last h by
        unfold mergeGap; rw [hs]; exact not_le.mp hc) hchain

lemma merge_aux_fixed (gap : ℚ) :
    ∀ (rest : List ClipWindow) (last : ClipWindow),
      List.Chain' (mergeGap gap) (last :: rest) →
      merge_aux gap last rest = last :: rest := by
  intro rest
  induction rest with
  | nil => intro last _; rfl
  | cons c rest ih =>
    intro last hchain
    have hgap : mergeGap gap last c := (List.chain'_cons.mp hchain).1
    have hc : ¬ c.start ≤ last.end_ + gap := not_le.mpr hgap
    simp only [merge_aux, hc, if_false]
    rw [ih c (List.chain'_cons.mp hchain).2]

/-- C7: window merging is idempotent — merging an already-merged list with
the same gap tolerance yields the same list, for every input list and
every gap. -/
theorem C7_merge_idempotent (windows : List ClipWindow) (gap : ℚ) :
    merge_windows (merge_windows windows gap) gap = merge_windows windows gap := by
  cases windows with
  | nil => rfl
  | cons w rest =>
    show merge_windows (merge_aux gap w rest) gap = merge_aux gap w rest
    obtain ⟨h, t, heq, _⟩ := merge_aux_head_start gap rest w
    have hchain := merge_aux_chain gap rest w
    rw [heq] at hchain ⊢
    exact merge_aux_fixed gap t h hchain

/-- C4 counterexample: with pre-roll 0 and post-roll 0 (both legitimate
settings — the config performs no validation on them), the single event at
time 10 yields the window `[10, 10]`, which violates `end > start`. -/
theorem C4_counterexample :
    ¬ (∀ w ∈ build_windows [⟨10, "kill"⟩] 0 0, 0 ≤ w.start ∧ w.start < w.end_) := by
  intro hall
  have hmem : (⟨10, 10⟩ : ClipWindow) ∈ build_windows [⟨10, "kill"⟩] 0 0 := by
    simp only [build_windows, List.map, List.insertionSort, List.orderedInsert]
    norm_num
  exact absurd (hall _ hmem).2 (by norm_num)

/-- C4 (amended): when the pre-roll is nonnegative and the post-roll is
strictly positive, every window produced by `build_windows` from events
with nonnegative times satisfies `start ≥ 0` and `end > start` — including
an event at time 0 with positive pre-roll. -/
theorem C4_window_bounds (events : List BookmarkEvent) (pre post : ℚ)
    (hpre : 0 ≤ pre) (hpost : 0 < post) (hev : ∀ e ∈ events, 0 ≤ e.time) :
    ∀ w ∈ build_windows events pre post, 0 ≤ w.start ∧ w.start < w.end_ := by
  intro w hw
  rw [build_windows, (List.perm_insertionSort windowLe _).mem_iff] at hw
  obtain ⟨e, he, rfl⟩ := List.mem_map.mp hw
  have ht : 0 ≤ e.time := hev e he
  refine ⟨le_max_left _ _, ?_⟩
  have h1 : max 0 (e.time - pre) < e.time + post := by
    rw [max_lt_iff]
    constructor <;> linarith
  exact lt_of_lt_of_le h1 (le_max_right _ _)

/-- Witness for C4: the event at time 0 with pre-roll 5 and post-roll 5
produces the clamped window `[0, 5]`, which satisfies the bounds. -/
theorem C4_witness :
    0 ≤ (⟨0, 5⟩ : ClipWindow).start ∧ (⟨0, 5⟩ : ClipWindow).start < (⟨0, 5⟩ : ClipWindow).end_ :=
  C4_window_bounds [⟨0, "kill"⟩] 5 5 (by norm_num) (by norm_num)
    (by intro e he; simp only [List.mem_singleton] at he; subst he; norm_num) ⟨0, 5⟩
    (by simp only [build_windows, List.map, List.insertionSort, List.orderedInsert]; norm_num)

/-- C1: a scan paused at frame N (valid marker, recorded session file
still present) and resumed with the resume flag starts from the marker's
frame index, reuses the marker's log file exactly (the existing log is
kept as-is, writes only append), and samples only frame indices strictly
greater than N. -/
theorem C1_resume_after_pause (m : PausedMarker) (fileExists : String → Bool)
    (fresh : String) (total_grabbed sample_interval : Nat)
    (hex : fileExists m.session_file = true) :
    resolve_resume true (some m) fileExists = (m.frame_index, some m.session_file) ∧
    choose_session_file (resolve_resume true (some m) fileExists) fileExists fresh
      = m.session_file ∧
    (∀ content fmt, ensure_session_file (some content) fmt = content) ∧
    (∀ content record, ∃ added, bookmark_append content record = content ++ added) ∧
    ∀ i ∈ sampled_frames total_grabbed m.frame_index sample_interval, m.frame_index < i := by
  refine ⟨by simp [resolve_resume, hex], by simp [resolve_resume, choose_session_file, hex],
    fun _ _ => rfl, fun content record => ⟨record, rfl⟩, ?_⟩
  intro i hi
  have h := (List.mem_filter.mp hi).2
  simp only [Bool.and_eq_true, decide_eq_true_eq] at h
  exact h.1

/-- Witness for C1 at a concrete marker: frame 240, log `session.csv`. -/
theorem C1_witness :
    resolve_resume true (some ⟨240, "session.csv"⟩) (fun _ => true)
      = (240, some "session.csv") ∧
    choose_session_file (resolve_resume true (some ⟨240, "session.csv"⟩) (fun _ => true))
      (fun _ => true) "fresh.csv" = "session.csv" :=
  ⟨(C1_resume_after_pause ⟨240, "session.csv"⟩ (fun _ => true) "fresh.csv" 500 3 rfl).1,
   (C1_resume_after_pause ⟨240, "session.csv"⟩ (fun _ => true) "fresh.csv" 500 3 rfl).2.1⟩

/-- C5 counterexample: the bare-timer fallback keeps the matched digit
groups verbatim, so `"00:27"` parses to `"00:27"`, not to the claimed
`"0:27"`. -/
theorem C5_counterexample :
    parse_apex_timer "00:27" = some "00:27" ∧ parse_apex_timer "00:27" ≠ some "0:27" := by
  exact ⟨rfl, by decide⟩

/-- C5 (amended): `"1 00:27"` parses to the ring-aware `"1:00:27"`, and
`"00:27"`, which has no ring digit, falls back to the bare-timer form with
the matched minute digits kept verbatim: `"00:27"`. -/
theorem C5_timer_parse :
    parse_apex_timer "1 00:27" = some "1:00:27" ∧
    parse_apex_timer "00:27" = some "00:27" :=
  ⟨rfl, rfl⟩

lemma timer_to_seconds_empty : timer_to_seconds "" = none := rfl

/-- C8: two timer observations are a candidate sync point iff both parse
and their total-seconds differ by at most 2; the reported offset is then
`(secondary - primary)` seconds (in milliseconds); `"14:32"` vs `"14:33"`
is within tolerance with offset 1000 ms. -/
theorem C8_sync_match_tolerance :
    (∀ p s : String,
        (sync_timers (some p) (some s)).1 = true ↔
          ∃ pv sv, timer_to_seconds p = some pv ∧ timer_to_seconds s = some sv ∧
            |pv - sv| ≤ 2) ∧
    (∀ t : Option String, (sync_timers t none).1 = false ∧ (sync_timers none t).1 = false) ∧
    (∀ (p s : String) (pv sv : ℤ), timer_to_seconds p = some pv →
        timer_to_seconds s = some sv → |pv - sv| ≤ 2 →
        sync_timers (some p) (some s) = (true, some ((sv - pv) * 1000))) ∧
    sync_timers (some "14:32") (some "14:33") = (true, some 1000) := by
  have key : ∀ (p s : String) (pv sv : ℤ), timer_to_seconds p = some pv →
      timer_to_seconds s = some sv → |pv - sv| ≤ 2 →
      sync_timers (some p) (some s) = (true, some ((sv - pv) * 1000)) := by
    intro p s pv sv hp hs h2
    have hpne : p ≠ "" := by
      intro e; rw [e, timer_to_seconds_empty] at hp; cases hp
    have hsne : s ≠ "" := by
      intro e; rw [e, timer_to_seconds_empty] at hs; cases hs
    simp only [sync_timers, hp, hs]
    rw [if_pos ⟨hpne, hsne⟩, if_pos h2]
  refine ⟨?_, ?_, key, by decide⟩
  · intro p s
    constructor
    · intro h
      by_cases hne : p ≠ "" ∧ s ≠ ""
      · rcases hp : timer_to_seconds p with _ | pv
        · have he : sync_timers (some p) (some s) = (false, none) := by
            simp only [sync_timers, hp]
            rw [if_pos hne]
          rw [he] at h; cases h
        · rcases hs : timer_to_seconds s with _ | sv
          · have he : sync_timers (some p) (some s) = (false, none) := by
              simp only [sync_timers, hp, hs]
              rw [if_pos hne]
            rw [he] at h; cases h
          · by_cases h2 : |pv - sv| ≤ 2
            · exact ⟨pv, sv, rfl, rfl, h2⟩
            · have he : sync_timers (some p) (some s) = (false, none) := by
                simp only [sync_timers, hp, hs]
                rw [if_pos hne, if_neg h2]
              rw [he] at h; cases h
      · have he : sync_timers (some p) (some s) = (false, none) := by
          simp only [sync_timers]
          rw [if_neg hne]
        rw [he] at h; cases h
    · rintro ⟨pv, sv, hp, hs, h2⟩
      rw [key p s pv sv hp hs h2]
  · intro t
    cases t <;> exact ⟨rfl, rfl⟩

/-- Witness for C8: `"14:32"` parses to 872, `"14:33"` to 873, the
difference is within tolerance, and the offset is `(873 - 872) * 1000`
milliseconds. -/
theorem C8_witness :
    sync_timers (some "14:32") (some "14:33") = (true, some ((873 - 872) * 1000)) :=
  C8_sync_match_tolerance.2.2.1 "14:32" "14:33" 872 873 rfl rfl (by decide)

lemma scan_step_reject_state (cd : ℚ) (kw : List String) (last : Option ℚ) (f : OcrFrame)
    (h : (scan_step cd kw last f).2 = false) : (scan_step cd kw last f).1 = last := by
  by_cases hm : detect_match f.lines kw ≠ ""
  · cases last with
    | none => simp [scan_step, hm] at h
    | some l =>
      by_cases hc : cd ≤ f.t - l
      · simp [scan_step, hm, hc] at h
      · simp [scan_step, hm, hc]
  · simp [scan_step, hm]

lemma scan_step_accept_state (cd : ℚ) (kw : List String) (last : Option ℚ) (f : OcrFrame)
    (h : (scan_step cd kw last f).2 = true) : (scan_step cd kw last f).1 = some f.t := by
  by_cases hm : detect_match f.lines kw ≠ ""
  · cases last with
    | none => simp [scan_step, hm]
    | some l =>
      by_cases hc : cd ≤ f.t - l
      · simp [scan_step, hm, hc]
      · simp [scan_step, hm, hc] at h
  · simp [scan_step, hm] at h

lemma scan_step_accept_cooldown (cd : ℚ) (kw : List String) (l : ℚ) (f : OcrFrame)
    (h : (scan_step cd kw (some l) f).2 = true) : cd ≤ f.t - l := by
  by_cases hm : detect_match f.lines kw ≠ ""
  · by_cases hc : cd ≤ f.t - l
    · exact hc
    · simp [scan_step, hm, hc] at h
  · simp [scan_step, hm] at h

/-- While the previous accepted match is closer than the cooldown, every
later frame is rejected (times strictly increasing, positive cooldown). -/
lemma scan_accepts_blocked (cd : ℚ) (kw : List String) (hcd : 0 < cd) :
    ∀ (fs : List OcrFrame) (l : ℚ),
      List.Pairwise (fun a b : OcrFrame => a.t < b.t) fs →
      ∀ (j : Nat) (hj : j < fs.length), fs[j].t - l < cd →
      (scan_accepts cd kw (some l) fs)[j]? = some false := by
  intro fs
  induction fs with
  | nil => intro l _ j hj; exact absurd hj (by simp)
  | cons f fs ih =>
    intro l hpw j hj hlt
    cases j with
    | zero =>
      simp only [List.getElem_cons_zero] at hlt
      simp only [scan_accepts, List.getElem?_cons_zero, Option.some.injEq]
      by_cases hm : detect_match f.lines kw ≠ ""
      · simp [scan_step, hm, not_le.mpr hlt]
      · simp [scan_step, hm]
    | succ k =>
      simp only [List.getElem_cons_succ] at hlt
      have hk : k < fs.length := Nat.succ_lt_succ_iff.mp hj
      simp only [scan_accepts, List.getElem?_cons_succ]
      by_cases hacc : (scan_step cd kw (some l) f).2 = true
      · rw [scan_step_accept_state cd kw (some l) f hacc]
        have hge := scan_step_accept_cooldown cd kw l f hacc
        exact ih f.t hpw.of_cons k hk (by linarith)
      · rw [scan_step_reject_state cd kw (some l) f (by simpa using hacc)]
        exact ih l hpw.of_cons k hk hlt

/-- Cooldown rejection along a whole scan, from any initial state. -/
lemma scan_accepts_cooldown_aux (cd : ℚ) (kw : List String) :
    ∀ (fs : List OcrFrame) (last : Option ℚ) (i j : Nat) (hi : i < fs.length)
      (hj : j < fs.length), i < j →
      List.Pairwise (fun a b : OcrFrame => a.t < b.t) fs →
      fs[j].t - fs[i].t < cd →
      (scan_accepts cd kw last fs)[i]? = some true →
      (scan_accepts cd kw last fs)[j]? = some false := by
  intro fs
  induction fs with
  | nil => intro last i j hi; exact absurd hi (by simp)
  | cons f fs ih =>
    intro last i j hi hj hij hpw hlt hacc
    cases j with
    | zero => exact absurd hij (by omega)
    | succ k =>
      have hk : k < fs.length := Nat.succ_lt_succ_iff.mp hj
      cases i with
      | zero =>
        simp only [scan_accepts, List.getElem?_cons_zero, Option.some.injEq] at hacc
        simp only [List.getElem_cons_zero, List.getElem_cons_succ] at hlt
        have hcd : 0 < cd := by
          have hmem : fs[k] ∈ fs := List.getElem_mem hk
          have := (List.pairwise_cons.mp hpw).1 fs[k] hmem
          linarith
        simp only [scan_accepts, List.getElem?_cons_succ]
        rw [scan_step_accept_state cd kw last f hacc]
        exact scan_accepts_blocked cd kw hcd fs f.t hpw.of_cons k hk hlt
      | succ m =>
        have hm : m < fs.length := Nat.succ_lt_succ_iff.mp hi
        simp only [List.getElem_cons_succ] at hlt
        simp only [scan_accepts, List.getElem?_cons_succ] at hacc ⊢
        exact ih (scan_step cd kw last f).1 m k hm hk (by omega) hpw.of_cons hlt hacc

/-- The matched line is the first line, in scan order, that contains a
keyword. -/
lemma detect_match_first_line (kw : List String) :
    ∀ lines : List String, detect_match lines kw ≠ "" →
      ∃ pre suf, lines = pre ++ detect_match lines kw :: suf ∧
        (∀ p ∈ pre, line_has_keyword p kw = false) ∧
        line_has_keyword (detect_match lines kw) kw = true := by
  intro lines
  induction lines with
  | nil => intro h; exact absurd rfl h
  | cons line rest ih =>
    intro h
    by_cases hl : line_has_keyword line kw
    · refine ⟨[], rest, ?_, by simp, ?_⟩ <;> simp [detect_match, hl]
    · have hrw : detect_match (line :: rest) kw = detect_match rest kw := by
        simp [detect_match, hl]
      rw [hrw] at h ⊢
      obtain ⟨pre, suf, heq, hpre, hkey⟩ := ih h
      refine ⟨line :: pre, suf, congrArg (List.cons line) heq, ?_, hkey⟩
      intro p hp
      rcases List.mem_cons.mp hp with rfl | hp2
      · exact Bool.not_eq_true _ ▸ hl
      · exact hpre p hp2

/-- C6: with strictly increasing frame times, if the match at frame `i`
was accepted and frame `j > i` lies within the cooldown of frame `i`, then
frame `j` is rejected; the last-trigger state advances only on an accepted
match (both in the VOD scan loop and in `EventDetector.detect`); and
within one frame the accepted match is the first line in scan order
containing any keyword. -/
theorem C6_cooldown_debounce :
    (∀ (cd : ℚ) (kw : List String) (fs : List OcrFrame) (i j : Nat)
        (hi : i < fs.length) (hj : j < fs.length), i < j →
        List.Pairwise (fun a b : OcrFrame => a.t < b.t) fs →
        fs[j].t - fs[i].t < cd →
        (scan_accepts cd kw none fs)[i]? = some true →
        (scan_accepts cd kw none fs)[j]? = some false) ∧
    (∀ (cd : ℚ) (kw : List String) (last : Option ℚ) (f : OcrFrame),
        (scan_step cd kw last f).2 = false → (scan_step cd kw last f).1 = last) ∧
    (∀ (kw : List String) (cd last now : ℚ) (lines : List String),
        (event_detector_detect kw cd last now lines).2.matched = false →
        (event_detector_detect kw cd last now lines).1 = last) ∧
    (∀ (kw : List String) (lines : List String), detect_match lines kw ≠ "" →
        ∃ pre suf, lines = pre ++ detect_match lines kw :: suf ∧
          (∀ p ∈ pre, line_has_keyword p kw = false) ∧
          line_has_keyword (detect_match lines kw) kw = true) := by
  refine ⟨fun cd kw fs i j hi hj hij hpw hlt =>
      scan_accepts_cooldown_aux cd kw fs none i j hi hj hij hpw hlt,
    scan_step_reject_state, ?_, fun kw lines => detect_match_first_line kw lines⟩
  intro kw cd last now lines h
  by_cases hlt : now - last < cd
  · simp [event_detector_detect, hlt]
  · cases hf : lines.find? (fun line => line_has_keyword line kw) with
    | none => simp [event_detector_detect, hlt, hf]
    | some line => simp [event_detector_detect, hlt, hf] at h

/-- Witness for C6: keyword matches at times 0 and 3 with cooldown 5 —
the second is rejected. -/
theorem C6_witness :
    (scan_accepts 5 ["killed"] none
      [⟨0, ["you killed x"]⟩, ⟨3, ["killed y"]⟩])[1]? = some false :=
  C6_cooldown_debounce.1 5 ["killed"] [⟨0, ["you killed x"]⟩, ⟨3, ["killed y"]⟩] 0 1
    (by decide) (by decide) (by decide) (by decide) (by norm_num) (by decide)

lemma find?_update_first_same (vods : List MultiVodSessionVod) (vid : String)
    (f : MultiVodSessionVod → MultiVodSessionVod) (hf : ∀ v, (f v).vod_id = v.vod_id) :
    (update_first_vod vods vid f).find? (fun v => v.vod_id == vid)
      = (vods.find? (fun v => v.vod_id == vid)).map f := by
  induction vods with
  | nil => rfl
  | cons v rest ih =>
    by_cases hv : v.vod_id == vid
    · have hfv : ((f v).vod_id == vid) = true := by rw [hf v]; exact hv
      simp only [update_first_vod, if_pos hv]
      rw [List.find?_cons_of_pos (p := fun w : MultiVodSessionVod => w.vod_id == vid) rest hfv,
        List.find?_cons_of_pos (p := fun w : MultiVodSessionVod => w.vod_id == vid) rest hv]
      rfl
    · simp only [update_first_vod, if_neg hv]
      rw [List.find?_cons_of_neg (p := fun w : MultiVodSessionVod => w.vod_id == vid) _ hv,
        List.find?_cons_of_neg (p := fun w : MultiVodSessionVod => w.vod_id == vid) rest hv, ih]

lemma find?_update_first_other (vods : List MultiVodSessionVod) (k vid : String)
    (f : MultiVodSessionVod → MultiVodSessionVod) (hf : ∀ v, (f v).vod_id = v.vod_id)
    (hne : k ≠ vid) :
    (update_first_vod vods k f).find? (fun v => v.vod_id == vid)
      = vods.find? (fun v => v.vod_id == vid) := by
  induction vods with
  | nil => rfl
  | cons v rest ih =>
    by_cases hv : v.vod_id == k
    · have hvk : v.vod_id = k := by simpa using hv
      have hpv : ¬ ((v.vod_id == vid) = true) := by simp [hvk, hne]
      have hpfv : ¬ (((f v).vod_id == vid) = true) := by rw [hf v]; exact hpv
      simp only [update_first_vod, if_pos hv]
      rw [List.find?_cons_of_neg (p := fun w : MultiVodSessionVod => w.vod_id == vid) rest hpfv,
        List.find?_cons_of_neg (p := fun w : MultiVodSessionVod => w.vod_id == vid) rest hpv]
    · simp only [update_first_vod, if_neg hv]
      by_cases hpv : v.vod_id == vid
      · rw [List.find?_cons_of_pos (p := fun w : MultiVodSessionVod => w.vod_id == vid) _ hpv,
          List.find?_cons_of_pos (p := fun w : MultiVodSessionVod => w.vod_id == vid) rest hpv]
      · rw [List.find?_cons_of_neg (p := fun w : MultiVodSessionVod => w.vod_id == vid) _ hpv,
          List.find?_cons_of_neg (p := fun w : MultiVodSessionVod => w.vod_id == vid) rest hpv, ih]

lemma batch_fold_not_mem (now : ℚ) (src : String) (conf : Option ℚ) (cb : String) :
    ∀ (offsets : List (String × ℚ)) (vods : List MultiVodSessionVod) (vid : String),
      vid ∉ offsets.map Prod.fst →
      (batch_fold now src conf cb offsets vods).find? (fun v => v.vod_id == vid)
        = vods.find? (fun v => v.vod_id == vid) := by
  intro offsets
  induction offsets with
  | nil => intro vods vid _; rfl
  | cons q rest ih =>
    intro vods vid hnm
    have h1 : q.1 ≠ vid := by
      intro e; exact hnm (by simp [e])
    have h2 : vid ∉ rest.map Prod.fst := by
      intro hh; exact hnm (by simp [hh])
    simp only [batch_fold]
    rw [ih _ vid h2]
    exact find?_update_first_other _ q.1 vid (apply_offset_update now q.2 src conf cb)
      (fun v => rfl) h1

lemma batch_fold_find (now : ℚ) (src : String) (conf : Option ℚ) (cb : String) :
    ∀ (offsets : List (String × ℚ)) (vods : List MultiVodSessionVod),
      (offsets.map Prod.fst).Nodup →
      ∀ p ∈ offsets,
        (batch_fold now src conf cb offsets vods).find? (fun v => v.vod_id == p.1)
          = (vods.find? (fun v => v.vod_id == p.1)).map
              (apply_offset_update now p.2 src conf cb) := by
  intro offsets
  induction offsets with
  | nil => intro vods _ p hp; cases hp
  | cons q rest ih =>
    intro vods hnd p hp
    rw [List.map_cons, List.nodup_cons] at hnd
    rcases List.mem_cons.mp hp with rfl | hp2
    · simp only [batch_fold]
      rw [batch_fold_not_mem now src conf cb rest _ p.1 hnd.1]
      exact find?_update_first_same _ p.1 (apply_offset_update now p.2 src conf cb)
        (fun v => rfl)
    · have hne : q.1 ≠ p.1 := by
        intro e
        exact hnd.1 (e ▸ List.mem_map.mpr ⟨p, hp2, rfl⟩)
      simp only [batch_fold]
      rw [ih _ hnd.2 p hp2,
        find?_update_first_other _ q.1 p.1 (apply_offset_update now q.2 src conf cb)
          (fun v => rfl) hne]

/-- C2: batch offset updates are all-or-nothing — one unknown vod id makes
the whole batch a not-found no-op with nothing persisted; when every id
exists, each listed vod receives its new offset and the session is saved
exactly once. -/
theorem C2_batch_all_or_nothing :
    (∀ (session : MultiVodSession) (offsets : List (String × ℚ)) (src : String)
        (conf : Option ℚ) (cb : String) (now : ℚ) (p : String × ℚ), p ∈ offsets →
        get_vod_by_id session p.1 = none →
        batch_update_offsets (some session) offsets src conf cb now = (none, 0)) ∧
    (∀ (session : MultiVodSession) (offsets : List (String × ℚ)) (src : String)
        (conf : Option ℚ) (cb : String) (now : ℚ),
        (∀ p ∈ offsets, (get_vod_by_id session p.1).isSome) →
        (offsets.map Prod.fst).Nodup →
        ∃ s2, batch_update_offsets (some session) offsets src conf cb now = (some s2, 1) ∧
          s2.updated_at = now ∧
          ∀ p ∈ offsets, ∃ v v2, get_vod_by_id session p.1 = some v ∧
            get_vod_by_id s2 p.1 = some v2 ∧ v2.offset = p.2) := by
  constructor
  · intro session offsets src conf cb now p hp hnone
    have hall : ¬ (offsets.all (fun q => (get_vod_by_id session q.1).isSome) = true) := by
      intro hall
      have := List.all_eq_true.mp hall p hp
      rw [hnone] at this
      cases this
    simp only [batch_update_offsets]
    rw [if_neg hall]
  · intro session offsets src conf cb now hsome hnd
    have hall : offsets.all (fun q => (get_vod_by_id session q.1).isSome) = true :=
      List.all_eq_true.mpr hsome
    refine ⟨save_session now
      { session with vods := batch_fold now src conf cb offsets session.vods }, ?_, rfl, ?_⟩
    · simp only [batch_update_offsets]
      rw [if_pos hall]
    · intro p hp
      obtain ⟨v, hv⟩ := Option.isSome_iff_exists.mp (hsome p hp)
      refine ⟨v, apply_offset_update now p.2 src conf cb v, hv, ?_, rfl⟩
      show (batch_fold now src conf cb offsets session.vods).find? (fun w => w.vod_id == p.1)
        = some (apply_offset_update now p.2 src conf cb v)
      rw [batch_fold_find now src conf cb offsets session.vods hnd p hp]
      rw [show session.vods.find? (fun w => w.vod_id == p.1) = some v from hv]
      rfl

/-- Witness for C2 on the concrete two-vod session: updating `vod-2` to
offset 5 succeeds, saves once, and applies the new offset. -/
theorem C2_witness :
    ∃ s2, batch_update_offsets (some demoSession) [("vod-2", 5)] "manual" none "system" 42
        = (some s2, 1) ∧
      s2.updated_at = 42 ∧
      ∀ p ∈ [("vod-2", (5 : ℚ))], ∃ v v2, get_vod_by_id demoSession p.1 = some v ∧
        get_vod_by_id s2 p.1 = some v2 ∧ v2.offset = p.2 :=
  C2_batch_all_or_nothing.2 demoSession [("vod-2", 5)] "manual" none "system" 42
    (by decide) (by decide)

/-- C3: every successful offset change — single, or per changed vod in a
batch — appends exactly one audit entry whose `old_offset` is the value
before the change and whose `new_offset` is the value applied; the history
query returns its entries sorted by timestamp descending and is a
permutation of the collected per-vod entries. -/
theorem C3_offset_history_audit :
    (∀ (session : MultiVodSession) (vid : String) (off : ℚ) (src : String)
        (conf : Option ℚ) (cb : String) (now : ℚ) (v : MultiVodSessionVod),
        get_vod_by_id session vid = some v →
        ∃ s2 v2, update_offset (some session) vid off src conf cb now = (some s2, 1) ∧
          get_vod_by_id s2 vid = some v2 ∧
          v2.offset_history = v.offset_history ++
            [{ timestamp := now, old_offset := v.offset, new_offset := off,
               source := src, confidence := conf, changed_by := cb }] ∧
          v2.offset = off) ∧
    (∀ (session : MultiVodSession) (offsets : List (String × ℚ)) (src : String)
        (conf : Option ℚ) (cb : String) (now : ℚ),
        (∀ p ∈ offsets, (get_vod_by_id session p.1).isSome) →
        (offsets.map Prod.fst).Nodup →
        ∀ p ∈ offsets, ∀ v, get_vod_by_id session p.1 = some v →
        ∃ s2 v2, batch_update_offsets (some session) offsets src conf cb now = (some s2, 1) ∧
          get_vod_by_id s2 p.1 = some v2 ∧
          v2.offset_history = v.offset_history ++
            [{ timestamp := now, old_offset := v.offset, new_offset := p.2,
               source := src, confidence := conf, changed_by := cb }] ∧
          v2.offset = p.2) ∧
    (∀ (db : Option MultiVodSession) (vid : Option String),
        List.Sorted histDesc (get_offset_history db vid)) ∧
    (∀ (session : MultiVodSession) (vid : Option String),
        (get_offset_history (some session) vid).Perm (collect_history session vid)) := by
  refine ⟨?_, ?_, ?_, ?_⟩
  · intro session vid off src conf cb now v hv
    refine ⟨save_session now
        { session with
            vods := update_first_vod session.vods vid (apply_offset_update now off src conf cb) },
      apply_offset_update now off src conf cb v, ?_, ?_, rfl, rfl⟩
    · simp only [update_offset, hv]
    · show (update_first_vod session.vods vid
          (apply_offset_update now off src conf cb)).find? (fun w => w.vod_id == vid)
        = some (apply_offset_update now off src conf cb v)
      rw [find?_update_first_same session.vods vid (apply_offset_update now off src conf cb)
          (fun w => rfl),
        show session.vods.find? (fun w => w.vod_id == vid) = some v from hv]
      rfl
  · intro session offsets src conf cb now hsome hnd p hp v hv
    have hall : offsets.all (fun q => (get_vod_by_id session q.1).isSome) = true :=
      List.all_eq_true.mpr hsome
    refine ⟨save_session now
        { session with vods := batch_fold now src conf cb offsets session.vods },
      apply_offset_update now p.2 src conf cb v, ?_, ?_, rfl, rfl⟩
    · simp only [batch_update_offsets]
      rw [if_pos hall]
    · show (batch_fold now src conf cb offsets session.vods).find? (fun w => w.vod_id == p.1)
        = some (apply_offset_update now p.2 src conf cb v)
      rw [batch_fold_find now src conf cb offsets session.vods hnd p hp,
        show session.vods.find? (fun w => w.vod_id == p.1) = some v from hv]
      rfl
  · intro db vid
    cases db with
    | none => exact List.sorted_nil
    | some session => exact List.sorted_insertionSort histDesc (collect_history session vid)
  · intro session vid
    exact List.perm_insertionSort histDesc (collect_history session vid)

/-- Witness for C3: the single-vod update on the concrete session appends
one entry recording `old_offset = 37`, `new_offset = 5`. -/
theorem C3_witness :
    ∃ s2 v2, update_offset (some demoSession) "vod-2" 5 "manual" none "system" 42
        = (some s2, 1) ∧
      get_vod_by_id s2 "vod-2" = some v2 ∧
      v2.offset_history = (demoVod "vod-2" 37).offset_history ++
        [{ timestamp := 42, old_offset := (demoVod "vod-2" 37).offset, new_offset := 5,
           source := "manual", confidence := none, changed_by := "system" }] ∧
      v2.offset = 5 :=
  C3_offset_history_audit.1 demoSession "vod-2" 5 "manual" none "system" 42
    (demoVod "vod-2" 37) (by decide)

/-- C9: the offset-history query maps a missing session to the empty list
(not a not-found error), so the HTTP handler's 404 branch is unreachable
and a missing session is indistinguishable from a session with no offset
changes. -/
theorem C9_missing_session_empty_history :
    (∀ vid, get_offset_history none vid = []) ∧
    (∀ (db : Option MultiVodSession) (vid : Option String),
        (get_offset_history_route db vid).1 = 200) ∧
    (∀ (session : MultiVodSession) (vid : Option String),
        (∀ v ∈ session.vods, v.offset_history = []) →
        get_offset_history (some session) vid = []) := by
  refine ⟨fun _ => rfl, fun _ _ => rfl, ?_⟩
  intro session vid hemp
  have hcol : collect_history session vid = [] := by
    unfold collect_history
    rw [List.flatMap_eq_nil_iff]
    intro v hvf
    rw [hemp v (List.mem_of_mem_filter hvf)]
    rfl
  show List.insertionSort histDesc (collect_history session vid) = []
  rw [hcol]
  rfl

/-- Witness for C9: the concrete session has no offset changes and its
history query result equals the one of a missing session. -/
theorem C9_witness : get_offset_history (some demoSession) none = [] :=
  C9_missing_session_empty_history.2.2 demoSession none (by decide)

lemma seek_preserves_vod_refl (v : MultiVodSessionVod) : seek_preserves_vod v v :=
  ⟨rfl, rfl, rfl, rfl, rfl, rfl, rfl, rfl, rfl, rfl, rfl, rfl, rfl, rfl⟩

lemma forall₂_seek_map (l : List MultiVodSessionVod)
    (f : MultiVodSessionVod → MultiVodSessionVod)
    (hf : ∀ v, seek_preserves_vod v (f v)) :
    List.Forall₂ seek_preserves_vod l (l.map f) := by
  induction l with
  | nil => exact List.Forall₂.nil
  | cons v rest ih => exact List.Forall₂.cons (hf v) ih

lemma forall₂_seek_update_first (l : List MultiVodSessionVod) (vid : String)
    (f : MultiVodSessionVod → MultiVodSessionVod)
    (hf : ∀ v, seek_preserves_vod v (f v)) :
    List.Forall₂ seek_preserves_vod l (update_first_vod l vid f) := by
  induction l with
  | nil => exact List.Forall₂.nil
  | cons v rest ih =>
    by_cases hv : v.vod_id == vid
    · simp only [update_first_vod, if_pos hv]
      exact List.Forall₂.cons (hf v)
        (List.forall₂_same.mpr fun x _ => seek_preserves_vod_refl x)
    · simp only [update_first_vod, if_neg hv]
      exact List.Forall₂.cons (seek_preserves_vod_refl v) ih

/-- C10: global seek and independent per-vod seek never touch any vod's
offset, offset source, offset confidence or offset history; per vod they
change only `current_time` and `playback_state`, and at session level only
`global_time`, `global_playback_state` and the persistence stamp
`updated_at`. -/
theorem C10_seek_frame_effect :
    (∀ (session : MultiVodSession) (t now : ℚ) (s2 : MultiVodSession),
        global_seek (some session) t now = some s2 → seek_preserves_session session s2) ∧
    (∀ (session : MultiVodSession) (vid : String) (t now : ℚ) (s2 : MultiVodSession),
        seek_vod (some session) vid t now = some s2 → seek_preserves_session session s2) := by
  constructor
  · intro session t now s2 h
    have h2 := Option.some.inj h
    rw [← h2]
    refine ⟨rfl, rfl, rfl, rfl, rfl, rfl, rfl, ?_⟩
    exact forall₂_seek_map session.vods _
      (fun v => ⟨rfl, rfl, rfl, rfl, rfl, rfl, rfl, rfl, rfl, rfl, rfl, rfl, rfl, rfl⟩)
  · intro session vid t now s2 h
    simp only [seek_vod] at h
    cases hv : get_vod_by_id session vid with
    | none => rw [hv] at h; cases h
    | some vod =>
      rw [hv] at h
      have h2 := Option.some.inj h
      rw [← h2]
      refine ⟨rfl, rfl, rfl, rfl, rfl, rfl, rfl, ?_⟩
      exact forall₂_seek_update_first session.vods vid _
        (fun v => ⟨rfl, rfl, rfl, rfl, rfl, rfl, rfl, rfl, rfl, rfl, rfl, rfl, rfl, rfl⟩)

/-- Witness for C10: global seek to 50 on the concrete session changes no
offset-related or identity field. -/
theorem C10_witness :
    ∃ s2, global_seek (some demoSession) 50 99 = some s2 ∧
      seek_preserves_session demoSession s2 :=
  ⟨_, rfl, C10_seek_frame_effect.1 demoSession 50 99 _ rfl⟩

end VodInsights
